/-
Verification of the fal client library (request lifecycle, framed duplex
protocol, and authentication subsystem) against its specification.

The Python source is shallowly embedded: pure functions become Lean
functions, stateful code (the websocket connection, the token store, the
colab-secret cache) becomes explicit state passing, and fallible code
returns `Except`/`Option`.  External collaborators (the `json` module, the
identity provider `auth0`, `os.environ`, the notebook secret store) are
passed in as explicit parameters, so the theorems quantify over their
behaviour.
-/

import Mathlib

set_option autoImplicit false

namespace Fal

/-! ## JSON values

Python's `json.loads` produces dictionaries, lists, strings, numbers,
booleans and `None`.  Numbers are modelled as integers (the values the
claims exercise are integers; float payloads are never computed with). -/

inductive Json where
  | null
  | bool (b : Bool)
  | num (n : Int)
  | str (s : String)
  | arr (elems : List Json)
  | obj (fields : List (String × Json))

mutual

/-- Python `==` on parsed JSON values (deep structural equality). -/
def Json.beq : Json → Json → Bool
  | .null, .null => true
  | .bool a, .bool b => a == b
  | .num a, .num b => a == b
  | .str a, .str b => a == b
  | .arr as, .arr bs => Json.beqList as bs
  | .obj fs, .obj gs => Json.beqFields fs gs
  | _, _ => false

def Json.beqList : List Json → List Json → Bool
  | [], [] => true
  | x :: xs, y :: ys => Json.beq x y && Json.beqList xs ys
  | _, _ => false

def Json.beqFields : List (String × Json) → List (String × Json) → Bool
  | [], [] => true
  | (k, v) :: xs, (k', v') :: ys => k == k' && Json.beq v v' && Json.beqFields xs ys
  | _, _ => false

end

/-- First-match association lookup inside a parsed JSON object, the
embedding of Python dictionary indexing on a parse result. -/
def lookupField : List (String × Json) → String → Option Json
  | [], _ => none
  | (k', v) :: rest, k => if k' = k then some v else lookupField rest k

/-- Lookup `j.get k` is Python `j[k]` / `j.get(k)` on a parsed JSON value:
`some` when `j` is an object holding key `k`, otherwise `none`
(dictionary indexing on a missing key raises `KeyError`; callers below
map the `none` to that error explicitly). -/
def Json.get : Json → String → Option Json
  | .obj fields, k => lookupField fields k
  | _, _ => none

/-- A `json.loads`-style parser is an external collaborator: any function
from raw text to an optional JSON value (`none` = `JSONDecodeError`). -/
def JsonParse : Type := String → Option Json

/-! ## Status state machine (`fal/apps.py`)

`_Status` with its three variants.  The dataclass fields are untyped at
runtime (Python performs no checks), so they hold raw JSON values. -/

inductive Status where
  | queued (position : Json)
  | inProgress (logs : Json)
  | completed (logs : Json)

def Status.isCompleted : Status → Bool
  | .completed _ => true
  | _ => false

/-- The Python exceptions the embedded request-handle operations can
surface. -/
inductive PyErr where
  | keyError
  | valueError
  | httpStatusError
  | jsonDecodeError
deriving DecidableEq, Repr

/-- An HTTP response as the client observes it: status code, the
`Content-Type` header (`none` when the header is absent), and the raw
body text. -/
structure HttpResponse where
  status_code : Nat
  content_type : Option String
  text : String
deriving DecidableEq, Repr

/-- The `httpx` success range used by `response.raise_for_status()`. -/
def isSuccessCode (code : Nat) : Bool :=
  200 ≤ code && code ≤ 299

/-- Embedding of `RequestHandle.status` (`fal/apps.py` lines 87-111),
from the point the response has been received:
`raise_for_status`, `response.json()`, then the 200/`IN_QUEUE`/
`IN_PROGRESS`/unknown dispatch. -/
def status (loads : JsonParse) (r : HttpResponse) : Except PyErr Status :=
  if ¬ isSuccessCode r.status_code then .error .httpStatusError
  else
    match loads r.text with
    | none => .error .jsonDecodeError
    | some data =>
      if r.status_code = 200 then
        match data.get "logs" with
        | some l => .ok (.completed l)
        | none => .error .keyError
      else
        match data.get "status" with
        | none => .error .keyError
        | some st =>
          if st.beq (.str "IN_QUEUE") then
            match data.get "queue_position" with
            | some p => .ok (.queued p)
            | none => .error .keyError
          else if st.beq (.str "IN_PROGRESS") then
            match data.get "logs" with
            | some l => .ok (.inProgress l)
            | none => .error .keyError
          else .error .valueError


/-! ## Result fetching (`RequestHandle.fetch_result`, `fal/apps.py`) -/

/-- Outcome of `fetch_result` as the caller observes it: the parsed
payload, the original `httpx.HTTPStatusError` re-raised unchanged, a new
`HTTPStatusError` whose message is `f"{response.status_code}:
{response.text}"`, a `KeyError` from the missing `Content-Type` header,
or a decode error from `response.json()` on the success path. -/
inductive FetchOutcome where
  | ok (data : Json)
  | errOriginal
  | errEnriched (code : Nat) (body : String)
  | errKeyError
  | errJsonDecode

/-- Embedding of `RequestHandle.fetch_result` (fal/apps.py lines 139-159), from the
point the response has been received: `raise_for_status`, the
`except httpx.HTTPStatusError` handler consulting
`response.headers["Content-Type"]`, then `response.json()`. -/
def fetch_result (loads : JsonParse) (r : HttpResponse) : FetchOutcome :=
  if isSuccessCode r.status_code then
    match loads r.text with
    | some data => .ok data
    | none => .errJsonDecode
  else
    match r.content_type with
    | none => .errKeyError
    | some ct =>
      if ct ≠ "application/json" then .errOriginal
      else .errEnriched r.status_code r.text

/-- A `json.loads` stand-in parsing the failure body used for C8. -/
def resultDemoLoads : JsonParse := fun s =>
  if s = "\x7b\"error\": \"boom\"\x7d" then
    some (.obj [("error", .str "boom")])
  else none

/-! ## Framed duplex channel (`_WSConnection`, `fal/apps.py`)

Frames are text or binary, as the `websockets` library delivers them;
bytes are modelled as `Nat` values below 256. -/

/-- One websocket frame. -/
inductive WsMsg where
  | text (s : String)
  | binary (b : List Nat)

/-- The `_WSConnection` state: the frames the socket will deliver to
`self._ws.recv()`, and the one-frame lookahead `self._buffer`. -/
structure WSConnection where
  incoming : List WsMsg
  buffer : Option WsMsg

/-- Errors the connection operations surface.  `stuck` is a model
artifact of the fuel bounding `_recv_response`'s loop; `recv` supplies
more fuel than there are frames, so it is unreachable there. -/
inductive WsErr where
  | valueError (msg : String)
  | keyError
  | connectionClosed
  | stuck
deriving DecidableEq, Repr

/-- Embedding of `_WSConnection._peek` (fal/apps.py lines 312-316): fill the buffer
from `self._ws.recv()` if empty, return its content.  Reading past the
modelled frame sequence is `connectionClosed`. -/
def WSConnection.peek (c : WSConnection) : Except WsErr (WsMsg × WSConnection) :=
  match c.buffer with
  | some m => .ok (m, c)
  | none =>
    match c.incoming with
    | [] => .error .connectionClosed
    | m :: ms => .ok (m, ⟨ms, some m⟩)

/-- Embedding of `_WSConnection._consume` (fal/apps.py lines 318-322). -/
def WSConnection.consume (c : WSConnection) : Except WsErr WSConnection :=
  match c.buffer with
  | none => .error (.valueError "No data to consume")
  | some _ => .ok ⟨c.incoming, none⟩

/-- Embedding of `_WSConnection._is_meta` (fal/apps.py lines 333-345): a control
frame is a text frame parsing to a JSON object that holds both `type`
and `request_id`. -/
def is_meta (loads : JsonParse) : WsMsg → Bool
  | .binary _ => false
  | .text s =>
    match loads s with
    | some (.obj fields) =>
        (lookupField fields "type").isSome &&
          (lookupField fields "request_id").isSome
    | _ => false

/-- Python `json_payload.get("type") != type`: `None` and any value
other than the string `t` compare unequal. -/
def getNeStr (j : Json) (k : String) (t : String) : Bool :=
  match j.get k with
  | some v => ! v.beq (.str t)
  | none => true

/-- Embedding of `_WSConnection._recv_meta` (fal/apps.py lines 347-356): peek, demand
a control frame of the given type, and consume it only on success (the
`with self._recv()` context manager does not consume when the body
raises).  The two inner error branches repeating the message are
unreachable: the `is_meta` guard already ensures a text frame that
parses. -/
def WSConnection.recv_meta (loads : JsonParse) (ty : String)
    (c : WSConnection) : Except WsErr (Json × WSConnection) :=
  match c.peek with
  | .error e => .error e
  | .ok (m, c') =>
    if ¬ is_meta loads m then
      .error (.valueError ("Expected a " ++ ty ++ " message"))
    else
      match m with
      | .binary _ => .error (.valueError ("Expected a " ++ ty ++ " message"))
      | .text s =>
        match loads s with
        | none => .error (.valueError ("Expected a " ++ ty ++ " message"))
        | some json_payload =>
          if getNeStr json_payload "type" ty then
            .error (.valueError ("Expected a " ++ ty ++ " message"))
          else
            match c'.consume with
            | .error e => .error e
            | .ok c'' => .ok (json_payload, c'')

/-- Frames and buffer still pending, the measure of how many loop
iterations `_recv_response` can take. -/
def WSConnection.size (c : WSConnection) : Nat :=
  c.incoming.length + (match c.buffer with | some _ => 1 | none => 0)

/-- Embedding of `_WSConnection._recv_response` (fal/apps.py lines 358-368) drained
to a list: accumulate non-control frames, stop — without consuming —
at the first control frame (the `_MetaMessageFound` break). -/
def WSConnection.recv_response (loads : JsonParse) :
    Nat → WSConnection → Except WsErr (List WsMsg × WSConnection)
  | 0, _ => .error .stuck
  | fuel + 1, c =>
    match c.peek with
    | .error e => .error e
    | .ok (m, c') =>
      if is_meta loads m then .ok ([], c')
      else
        match c'.consume with
        | .error e => .error e
        | .ok c'' =>
          match WSConnection.recv_response loads fuel c'' with
          | .error e => .error e
          | .ok (ms, c₃) => .ok (m :: ms, c₃)

/-- UTF-8 encoding of one character, bytes as `Nat`. -/
def utf8Bytes (c : Char) : List Nat :=
  let v := c.toNat
  if v < 0x80 then [v]
  else if v < 0x800 then
    [0xC0 + v / 0x40, 0x80 + v % 0x40]
  else if v < 0x10000 then
    [0xE0 + v / 0x1000, 0x80 + v / 0x40 % 0x40, 0x80 + v % 0x40]
  else
    [0xF0 + v / 0x40000, 0x80 + v / 0x1000 % 0x40, 0x80 + v / 0x40 % 0x40,
      0x80 + v % 0x40]

/-- Encoding `response += part.encode()` for text frames, raw append for binary
frames (fal/apps.py lines 375-379). -/
def encodeWsBytes : WsMsg → List Nat
  | .text s => s.data.flatMap utf8Bytes
  | .binary b => b

/-- Embedding of `_WSConnection.recv` (fal/apps.py lines 370-385): validate a Start
control frame, accumulate data frames, validate an End control frame
whose `request_id` matches the Start's. -/
def WSConnection.recv (loads : JsonParse) (c : WSConnection) :
    Except WsErr (List Nat × WSConnection) :=
  match WSConnection.recv_meta loads "start" c with
  | .error e => .error e
  | .ok (start, c₁) =>
    match start.get "request_id" with
    | none => .error .keyError
    | some request_id =>
      match WSConnection.recv_response loads (c₁.size + 1) c₁ with
      | .error e => .error e
      | .ok (parts, c₂) =>
        match WSConnection.recv_meta loads "end" c₂ with
        | .error e => .error e
        | .ok (endMsg, c₃) =>
          match endMsg.get "request_id" with
          | none => .error .keyError
          | some end_id =>
            if ¬ end_id.beq request_id then
              .error (.valueError "Mismatched request_id in end message")
            else .ok ((parts.map encodeWsBytes).flatten, c₃)

/-- A `json.loads` stand-in for the control frames of the C2 example. -/
def wsDemoLoads : JsonParse := fun s =>
  if s = "\x7b\"type\": \"start\", \"request_id\": 7\x7d" then
    some (.obj [("type", .str "start"), ("request_id", .num 7)])
  else if s = "\x7b\"type\": \"end\", \"request_id\": 7\x7d" then
    some (.obj [("type", .str "end"), ("request_id", .num 7)])
  else if s = "\x7b\"type\": \"end\", \"request_id\": 8\x7d" then
    some (.obj [("type", .str "end"), ("request_id", .num 8)])
  else none

/-! ## Lazy event sequence (`RequestHandle.iter_events`, `fal/apps.py`)

The generator repeatedly polls `status`; `polls i` is the status the
`i`-th poll returns (all polls assumed to succeed, the regime the claim
describes).  Its observable behaviour is the trace of yields and sleeps. -/

/-- One observable step of the `iter_events` generator: a yielded status
or a `time.sleep(delay)`. -/
inductive PollEvent where
  | yielded (s : Status)
  | slept (delay : ℚ)

/-- The default `__poll_delay`: the source literal `0.2` seconds,
represented exactly as a rational. -/
def defaultPollDelay : ℚ := 1 / 5

/-- Embedding of `RequestHandle.iter_events` (fal/apps.py lines 122-137) started at
poll index `i`, with fuel bounding how many polls are observed:
`some trace` once a poll returns `Completed` (the generator returns
without yielding it), `none` when `fuel` polls have not reached
`Completed` — the loop is still running, so an unbounded run never
produces a trace. -/
def iter_events (polls : Nat → Status) (delay : ℚ) : Nat → Nat → Option (List PollEvent)
  | _, 0 => none
  | i, fuel + 1 =>
    match polls i with
    | .completed _ => some []
    | s => (iter_events polls delay (i + 1) fuel).map
        (fun t => .yielded s :: .slept delay :: t)

/-- The trace `iter_events` produces when the `k`-th poll after index `i`
is the first `Completed`: each earlier poll is yielded then slept on. -/
def poll_trace (polls : Nat → Status) (delay : ℚ) : Nat → Nat → List PollEvent
  | _, 0 => []
  | i, k + 1 => .yielded (polls i) :: .slept delay :: poll_trace polls delay (i + 1) k

/-- The statuses a trace yields, in order. -/
def trace_yields (t : List PollEvent) : List Status :=
  t.filterMap fun e =>
    match e with
    | .yielded s => some s
    | .slept _ => none

/-- A concrete stand-in for `json.loads` covering the status bodies of the
spec's examples. -/
def statusDemoLoads : JsonParse := fun s =>
  if s = "\x7b\"logs\": []\x7d" then
    some (.obj [("logs", .arr [])])
  else if s = "\x7b\"status\": \"IN_QUEUE\", \"queue_position\": 3\x7d" then
    some (.obj [("status", .str "IN_QUEUE"), ("queue_position", .num 3)])
  else if s = "\x7b\"status\": \"BOGUS\"\x7d" then
    some (.obj [("status", .str "BOGUS")])
  else none

/-! ## App-id canonicalization (`fal/apps.py`)

Python string operations are embedded at character-list level:
`str.replace("-", "/", 1)`, `str.split("/")` and `"/".join(...)`. -/

/-- Python `app_id.replace("-", "/", 1)`: replace the first dash, if any,
by a slash. -/
def replaceFirstDash : List Char → List Char
  | [] => []
  | c :: cs => if c = '-' then '/' :: cs else c :: replaceFirstDash cs

/-- Python `s.split(sep)` for a one-character separator: always returns a
non-empty list of (possibly empty) groups. -/
def splitChar (sep : Char) : List Char → List (List Char)
  | [] => [[]]
  | c :: cs =>
    if c = sep then [] :: splitChar sep cs
    else
      match splitChar sep cs with
      | [] => [[c]]
      | r :: rs => (c :: r) :: rs

/-- Python `sep.join(parts)` for a one-character separator. -/
def joinChar (sep : Char) : List (List Char) → List Char
  | [] => []
  | [p] => p
  | p :: ps => p ++ sep :: joinChar sep ps

/-- Embedding of `_backwards_compatible_app_id` (fal/apps.py lines 24-29). -/
def backwards_compatible_app_id (app_id : List Char) : List Char :=
  if ¬ app_id.contains '/' then replaceFirstDash app_id
  else app_id

/-- Embedding of `RequestHandle.__post_init__` (fal/apps.py lines 77-85) composed with
`_backwards_compatible_app_id`: the canonicalization applied to `app_id`
when a `RequestHandle` is constructed.  (`parts[0]` is total because
`split` never returns an empty list; `headD` with an arbitrary default
models it.) -/
def canonical_app_id (app_id : List Char) : List Char :=
  let app_id := backwards_compatible_app_id app_id
  let parts := (splitChar '/' app_id).take 3
  let parts := if parts.headD [] ≠ "workflows".data then parts.take 2 else parts
  joinChar '/' parts

/-- String-level wrapper of `canonical_app_id`. -/
def canonicalAppId (s : String) : String :=
  String.mk (canonical_app_id s.data)

/-! ## Credential resolution (`fal/auth/__init__.py`) -/

/-- The external inputs `key_credentials` consults: the three environment
variables, the persisted config (`Config().get("key")`), and the value
the notebook secret store yields (`get_colab_token()`). -/
structure Env where
  fal_force_auth_by_user : Option String
  fal_key : Option String
  config_key : Option String
  colab_token : Option String
  fal_key_id : Option String
  fal_key_secret : Option String
deriving DecidableEq, Repr

/-- Python truthiness of a string-or-`None` value (`None` and `""` are
falsy). -/
def truthy : Option String → Bool
  | none => false
  | some s => s != ""

/-- Python `a or b` on string-or-`None` values: `a` when truthy, else
`b`. -/
def pyOr (a b : Option String) : Option String :=
  if truthy a then a else b

/-- Python `s.split(sep, 1)` restricted to its two-element outcome:
`some (before, after)` when `sep` occurs in `cs`, `none` otherwise. -/
def splitFirstChar (sep : Char) : List Char → Option (List Char × List Char)
  | [] => none
  | c :: cs =>
    if c = sep then some ([], cs)
    else
      match splitFirstChar sep cs with
      | none => none
      | some (a, b) => some (c :: a, b)

/-- Python `key_id, key_secret = key.split(":", 1)`: `some` of the pair
when `key` contains a colon; `none` when it does not, in which case the
unpacking raises `ValueError`. -/
def splitFirstColon (s : String) : Option (String × String) :=
  match splitFirstChar ':' s.data with
  | none => none
  | some (a, b) => some (String.mk a, String.mk b)

/-- Outcome of `key_credentials`. -/
inductive KeyCreds where
  | absent
  | creds (key_id key_secret : String)
  | valueError
deriving DecidableEq, Repr

/-- Embedding of `key_credentials` (fal/auth/__init__.py lines 57-71). -/
def key_credentials (e : Env) : KeyCreds :=
  if e.fal_force_auth_by_user = some "1" then .absent
  else
    let key := pyOr (pyOr e.fal_key e.config_key) e.colab_token
    if truthy key then
      match key with
      | some s =>
        match splitFirstColon s with
        | some (i, sec) => .creds i sec
        | none => .valueError
      | none => .valueError
    else
      match e.fal_key_id, e.fal_key_secret with
      | some i, some s => .creds i s
      | _, _ => .absent

/-- Credentials as resolved for a request. -/
inductive Credentials where
  | key (key_id key_secret : String)
  | bearer (token : String)
deriving DecidableEq, Repr

/-- Outcome of credential resolution. -/
inductive ResolveResult where
  | creds (c : Credentials)
  | unauthenticated
  | error
deriving DecidableEq, Repr

/-- Modelled from the spec: `get_default_credentials` (`fal/sdk.py`) is
not under `src/`; per the spec, resolution evaluates key-based sources
first and "if none match, resolution falls through to bearer-token
resolution via the Token Store".  `bearer_token` is the token-store
outcome. -/
def get_default_credentials (e : Env) (bearer_token : Option String) :
    ResolveResult :=
  match key_credentials e with
  | .creds i s => .creds (.key i s)
  | .valueError => .error
  | .absent =>
    match bearer_token with
    | some t => .creds (.bearer t)
    | none => .unauthenticated

/-! ## Token store and access-token refresh (`fal/auth/__init__.py`)

`_fetch_access_token` runs its whole read-verify-refresh-write sequence
inside `local.lock_token()`; the lock makes the sequence atomic across
processes, which this sequential model reflects by treating one call as
one state transition. -/

/-- Modelled from the spec: `fal.auth.local` (the persisted token file
with `load_token`/`save_token`/`delete_token`) is not under `src/`; the
spec's Token Store contract is `load() -> (refresh_token | absent,
access_token | absent)`, `save(refresh_token, access_token)`, and
`delete()` clearing the pair. -/
structure TokenStore where
  refresh_token : Option String
  access_token : Option String
deriving DecidableEq, Repr

/-- Modelled from the spec: `local.load_token()`. -/
def load_token (s : TokenStore) : Option String × Option String :=
  (s.refresh_token, s.access_token)

/-- Modelled from the spec: `local.save_token(refresh, access)`
overwrites the stored pair (rotation-safe). -/
def save_token (ref acc : String) : TokenStore :=
  ⟨some ref, some acc⟩

/-- Modelled from the spec: `local.delete_token()` clears the stored
pair entirely. -/
def delete_token : TokenStore :=
  ⟨none, none⟩

/-! ## Notebook-secret cache (`fal/auth/__init__.py`) -/

/-- Embedding of `GoogleColabState` (fal/auth/__init__.py lines 14-21): the
process-wide cache singleton.  Its `Lock` member makes one call's
check-and-query atomic; this sequential model reflects that by treating
each call as one atomic state transition, which is exactly what the
mutex guarantees to concurrent callers. -/
structure GoogleColabState where
  is_checked : Bool
  secret : Option String
deriving DecidableEq, Repr

/-- Characters stripped by Python `str.strip()`. -/
def isPyWhitespace (c : Char) : Bool :=
  c = ' ' || c = '\t' || c = '\n' || c = '\r' || c = '\x0b' || c = '\x0c'

/-- Python `token.strip()`. -/
def pyStrip (s : String) : String :=
  String.mk (((s.data.dropWhile isPyWhitespace).reverse.dropWhile
    isPyWhitespace).reverse)

/-- The external inputs one `get_colab_token` call observes:
`is_google_colab()`, whether `from google.colab import userdata`
succeeds, and the outcome of `userdata.get("FAL_KEY")` (`Except.error` =
it raised). -/
structure ColabCallEnv where
  is_colab : Bool
  import_ok : Bool
  userdata_get : Except Unit String

/-- Embedding of `get_colab_token` (fal/auth/__init__.py lines 35-54) as one atomic
state transition: the returned token, the new cache state, and the
number of secret-store lookups performed by this call (0 or 1). -/
def get_colab_token (env : ColabCallEnv) (st : GoogleColabState) :
    Option String × GoogleColabState × Nat :=
  if ¬ env.is_colab then (none, st, 0)
  else if st.is_checked then (st.secret, st, 0)
  else if ¬ env.import_ok then (none, st, 0)
  else
    match env.userdata_get with
    | .ok token => (some (pyStrip token), ⟨true, some (pyStrip token)⟩, 1)
    | .error _ => (none, ⟨true, none⟩, 1)

/-- A sequence of `get_colab_token` calls from a given cache state:
final state and total number of secret-store lookups. -/
def run_colab_calls : GoogleColabState → List ColabCallEnv →
    GoogleColabState × Nat
  | st, [] => (st, 0)
  | st, e :: es =>
    ((run_colab_calls (get_colab_token e st).2.1 es).1,
      (get_colab_token e st).2.2 +
        (run_colab_calls (get_colab_token e st).2.1 es).2)

/-- Outcome of `_fetch_access_token`. -/
inductive FetchTokenResult where
  | token (access : String)
  | unauthenticated
  | refreshError
deriving DecidableEq, Repr

/-- Result, final store state, and the refresh tokens passed to
`auth0.refresh` (in call order) for one `_fetch_access_token` call. -/
structure FetchTokenOutcome where
  result : FetchTokenResult
  store : TokenStore
  exchanges : List String
deriving DecidableEq, Repr

/-- The `try: auth0.refresh / save ... except: delete; raise` block of
`_fetch_access_token` (fal/auth/__init__.py lines 95-105).  `refresh_fn r`
models the external `auth0.refresh(r)`: `some (refresh, access)` is the
returned `token_data`, `none` means the exchange raised. -/
def do_refresh (refresh_fn : String → Option (String × String))
    (refresh_token : String) : FetchTokenOutcome :=
  match refresh_fn refresh_token with
  | some (r', a') => ⟨.token a', save_token r' a', [refresh_token]⟩
  | none => ⟨.refreshError, delete_token, [refresh_token]⟩

/-- Embedding of `_fetch_access_token` (fal/auth/__init__.py lines 74-105), under the
token-file lock.  `verify_ok a` models
`auth0.verify_access_token_expiration(a)` returning normally (the decoded
expiration claim is in the future); any exception there is swallowed and
leads to a refresh. -/
def fetch_access_token (verify_ok : String → Bool)
    (refresh_fn : String → Option (String × String)) (s : TokenStore) :
    FetchTokenOutcome :=
  match load_token s with
  | (none, _) => ⟨.unauthenticated, s, []⟩
  | (some refresh_token, access_token) =>
    match access_token with
    | some a =>
      if verify_ok a then ⟨.token a, s, []⟩
      else do_refresh refresh_fn refresh_token
    | none => do_refresh refresh_fn refresh_token

/-- The spec's example server: Queued, Queued, InProgress, then
Completed forever. -/
def demoPolls : Nat → Fal.Status := fun i =>
  match i with
  | 0 => .queued (.num 2)
  | 1 => .queued (.num 1)
  | 2 => .inProgress .null
  | _ => .completed (.arr [])

@[simp]
theorem Json.beq_str_str (a b : String) : Json.beq (.str a) (.str b) = (a == b) := rfl

theorem iter_events_run (polls : Nat → Status) (delay : ℚ) :
    ∀ k i fuel, k < fuel →
    (∀ j, j < k → (polls (i + j)).isCompleted = false) →
    (polls (i + k)).isCompleted = true →
    iter_events polls delay i fuel = some (poll_trace polls delay i k) := by
  intro k
  induction k with
  | zero =>
    intro i fuel hfuel h hk
    cases fuel with
    | zero => omega
    | succ f =>
      simp only [Nat.add_zero] at hk
      cases hp : polls i with
      | completed l => simp [iter_events, hp, poll_trace]
      | queued p => rw [hp] at hk; simp [Status.isCompleted] at hk
      | inProgress l => rw [hp] at hk; simp [Status.isCompleted] at hk
  | succ k ih =>
    intro i fuel hfuel h hk
    cases fuel with
    | zero => omega
    | succ f =>
      have h0 : (polls i).isCompleted = false := by
        simpa using h 0 (Nat.succ_pos k)
      have harith : ∀ j : Nat, i + 1 + j = i + (j + 1) := by omega
      have h' : ∀ j, j < k → (polls (i + 1 + j)).isCompleted = false := by
        intro j hj
        rw [harith j]
        exact h (j + 1) (by omega)
      have hk' : (polls (i + 1 + k)).isCompleted = true := by
        rw [harith k]; exact hk
      have ihx := ih (i + 1) f (by omega) h' hk'
      cases hp : polls i with
      | completed l => rw [hp] at h0; simp [Status.isCompleted] at h0
      | queued p => simp [iter_events, hp, ihx, poll_trace]
      | inProgress l => simp [iter_events, hp, ihx, poll_trace]

theorem iter_events_never (polls : Nat → Status) (delay : ℚ)
    (h : ∀ n, (polls n).isCompleted = false) :
    ∀ fuel i, iter_events polls delay i fuel = none := by
  intro fuel
  induction fuel with
  | zero => intro i; rfl
  | succ f ih =>
    intro i
    cases hp : polls i with
    | completed l =>
      have := h i
      rw [hp] at this
      simp [Status.isCompleted] at this
    | queued p => simp [iter_events, hp, ih (i + 1)]
    | inProgress l => simp [iter_events, hp, ih (i + 1)]

theorem trace_yields_poll_trace (polls : Nat → Status) (delay : ℚ) :
    ∀ k i, trace_yields (poll_trace polls delay i k)
      = (List.range k).map (fun j => polls (i + j)) := by
  intro k
  induction k with
  | zero => intro i; rfl
  | succ k ih =>
    intro i
    have hstep : trace_yields (poll_trace polls delay i (k + 1))
        = polls i :: trace_yields (poll_trace polls delay (i + 1) k) := rfl
    rw [hstep, ih (i + 1), List.range_succ_eq_map, List.map_cons, List.map_map]
    refine congrArg (polls i :: ·) ?_
    refine List.map_congr_left fun j _ => ?_
    simp only [Function.comp_apply]
    exact congrArg polls (by omega)

theorem get_colab_token_of_checked (env : ColabCallEnv)
    (st : GoogleColabState) (h : st.is_checked = true) :
    (get_colab_token env st).2.1 = st ∧ (get_colab_token env st).2.2 = 0 := by
  by_cases h1 : env.is_colab <;> simp [get_colab_token, h1, h]

theorem get_colab_token_step (env : ColabCallEnv) (st : GoogleColabState) :
    ((get_colab_token env st).2.1 = st ∧ (get_colab_token env st).2.2 = 0) ∨
    ((get_colab_token env st).2.1.is_checked = true ∧
      (get_colab_token env st).2.2 = 1) := by
  by_cases h1 : env.is_colab <;> by_cases h2 : st.is_checked <;>
    by_cases h3 : env.import_ok <;> cases hg : env.userdata_get <;>
    simp [get_colab_token, h1, h2, h3, hg]

theorem run_colab_calls_of_checked (st : GoogleColabState)
    (h : st.is_checked = true) (es : List ColabCallEnv) :
    (run_colab_calls st es).2 = 0 := by
  induction es generalizing st with
  | nil => rfl
  | cons e es ih =>
    obtain ⟨hst, hn⟩ := get_colab_token_of_checked e st h
    simp only [run_colab_calls, hst, hn, ih st h, Nat.add_zero]

theorem run_colab_calls_le_one (st : GoogleColabState)
    (es : List ColabCallEnv) : (run_colab_calls st es).2 ≤ 1 := by
  induction es generalizing st with
  | nil => simp [run_colab_calls]
  | cons e es ih =>
    rcases get_colab_token_step e st with ⟨hst, hn⟩ | ⟨hc, hn⟩
    · simpa only [run_colab_calls, hst, hn, Nat.zero_add] using ih st
    · simp only [run_colab_calls, hn,
        run_colab_calls_of_checked _ hc es, Nat.add_zero]
      exact le_refl 1

theorem pyOr_of_not_truthy (a b : Option String) (h : truthy a = false) :
    pyOr a b = b := by
  simp [pyOr, h]

theorem truthy_some_of_ne (s : String) (h : s ≠ "") :
    truthy (some s) = true := by
  simp [truthy, h]

theorem splitFirstChar_of_not_contains (sep : Char) (cs : List Char)
    (h : cs.contains sep = false) : splitFirstChar sep cs = none := by
  induction cs with
  | nil => rfl
  | cons c cs ih =>
    simp only [List.contains_cons, Bool.or_eq_false_iff, beq_eq_false_iff_ne] at h
    simp [splitFirstChar, Ne.symm h.1, ih h.2]

theorem splitChar_ne_nil (sep : Char) (cs : List Char) : splitChar sep cs ≠ [] := by
  cases cs with
  | nil => simp [splitChar]
  | cons c cs =>
    simp only [splitChar]
    split
    · simp
    · cases h : splitChar sep cs <;> simp

theorem joinChar_splitChar (sep : Char) (cs : List Char) :
    joinChar sep (splitChar sep cs) = cs := by
  induction cs with
  | nil => rfl
  | cons c cs ih =>
    simp only [splitChar]
    by_cases hc : c = sep
    · rw [if_pos hc]
      cases h : splitChar sep cs with
      | nil => exact absurd h (splitChar_ne_nil sep cs)
      | cons r rs =>
        rw [h] at ih
        simp [joinChar, ih, hc]
    · rw [if_neg hc]
      cases h : splitChar sep cs with
      | nil => exact absurd h (splitChar_ne_nil sep cs)
      | cons r rs =>
        rw [h] at ih
        cases rs with
        | nil => simpa [joinChar] using congrArg (c :: ·) ih
        | cons r2 rs2 => simpa [joinChar] using congrArg (c :: ·) ih

theorem splitChar_of_not_contains (sep : Char) (cs : List Char)
    (h : cs.contains sep = false) : splitChar sep cs = [cs] := by
  induction cs with
  | nil => rfl
  | cons c cs ih =>
    simp only [List.contains_cons, Bool.or_eq_false_iff, beq_eq_false_iff_ne] at h
    simp only [splitChar, if_neg (Ne.symm h.1), ih h.2]

theorem splitChar_replaceFirstDash_length (cs : List Char)
    (h : cs.contains '/' = false) :
    (splitChar '/' (replaceFirstDash cs)).length ≤ 2 := by
  induction cs with
  | nil => simp [replaceFirstDash, splitChar]
  | cons c cs ih =>
    simp only [List.contains_cons, Bool.or_eq_false_iff, beq_eq_false_iff_ne] at h
    by_cases hd : c = '-'
    · subst hd
      simp only [replaceFirstDash, if_pos rfl, splitChar, if_pos rfl,
        splitChar_of_not_contains '/' cs h.2]
      simp
    · have hslash : c ≠ '/' := Ne.symm h.1
      have ih2 := ih h.2
      simp only [replaceFirstDash, if_neg hd, splitChar, if_neg hslash]
      cases hsp : splitChar '/' (replaceFirstDash cs) with
      | nil => exact absurd hsp (splitChar_ne_nil _ _)
      | cons r rs =>
        rw [hsp] at ih2
        simpa using ih2

theorem canonical_app_id_no_slash (cs : List Char) (h : cs.contains '/' = false) :
    canonical_app_id cs = replaceFirstDash cs := by
  unfold canonical_app_id backwards_compatible_app_id
  rw [if_pos (by simpa using h)]
  have hlen : (splitChar '/' (replaceFirstDash cs)).length ≤ 2 :=
    splitChar_replaceFirstDash_length cs h
  have h3 : (splitChar '/' (replaceFirstDash cs)).take 3
      = splitChar '/' (replaceFirstDash cs) :=
    List.take_of_length_le (le_trans hlen (by norm_num))
  have h2 : (splitChar '/' (replaceFirstDash cs)).take 2
      = splitChar '/' (replaceFirstDash cs) :=
    List.take_of_length_le hlen
  simp only [h3]
  split
  · rw [h2, joinChar_splitChar]
  · rw [joinChar_splitChar]

theorem canonical_app_id_slash (cs : List Char) (h : cs.contains '/' = true) :
    canonical_app_id cs
      = joinChar '/'
          (if (splitChar '/' cs).headD [] ≠ "workflows".data
            then (splitChar '/' cs).take 2
            else (splitChar '/' cs).take 3) := by
  unfold canonical_app_id backwards_compatible_app_id
  rw [if_neg (by simpa using h)]
  cases hsp : splitChar '/' cs with
  | nil => exact absurd hsp (splitChar_ne_nil _ _)
  | cons r rs =>
    simp only [hsp]
    by_cases hw : r = "workflows".data
    · simp [hw, List.take_take]
    · simp [hw, List.take_take]

end Fal

/-- C7 (amended): canonicalization of an `app_id` on `RequestHandle`
construction: an id containing no slash has its first dash replaced by a
slash; an id whose first slash-separated part is `"workflows"` keeps only
its first 3 parts; any other id keeps only its first 2 parts; in
particular `"abc-123"` → `"abc/123"`, `"workflows/a/b/c/d"` →
`"workflows/a/b"` (the first 3 parts — not `"workflows/a/b/c"` as the
spec's example has it), and `"a/b/c/d"` → `"a/b"`. -/
theorem claim_C7 (s : String) :
    (s.data.contains '/' = false →
      Fal.canonicalAppId s = String.mk (Fal.replaceFirstDash s.data)) ∧
    (s.data.contains '/' = true →
      (Fal.splitChar '/' s.data).headD [] = "workflows".data →
      Fal.canonicalAppId s
        = String.mk (Fal.joinChar '/' ((Fal.splitChar '/' s.data).take 3))) ∧
    (s.data.contains '/' = true →
      (Fal.splitChar '/' s.data).headD [] ≠ "workflows".data →
      Fal.canonicalAppId s
        = String.mk (Fal.joinChar '/' ((Fal.splitChar '/' s.data).take 2))) ∧
    Fal.canonicalAppId "abc-123" = "abc/123" ∧
    Fal.canonicalAppId "workflows/a/b/c/d" = "workflows/a/b" ∧
    Fal.canonicalAppId "a/b/c/d" = "a/b" := by
  refine ⟨?_, ?_, ?_, by decide, by decide, by decide⟩
  · intro h
    exact congrArg String.mk (Fal.canonical_app_id_no_slash s.data h)
  · intro h hw
    have := Fal.canonical_app_id_slash s.data h
    rw [if_neg (not_not_intro hw)] at this
    exact congrArg String.mk this
  · intro h hw
    have := Fal.canonical_app_id_slash s.data h
    rw [if_pos hw] at this
    exact congrArg String.mk this

/-- Counterexample for C7 as stated: the spec's example claims
`"workflows/a/b/c/d"` canonicalizes to `"workflows/a/b/c"`, but the code
keeps only the first 3 slash-separated parts, yielding
`"workflows/a/b"`. -/
theorem claim_C7_counterexample :
    Fal.canonicalAppId "workflows/a/b/c/d" ≠ "workflows/a/b/c" ∧
    Fal.canonicalAppId "workflows/a/b/c/d" = "workflows/a/b" := by
  constructor
  · decide
  · decide

/-- Witness for C7: the general rules applied at concrete ids. -/
theorem claim_C7_witness :
    Fal.canonicalAppId "x-y-z" = String.mk (Fal.replaceFirstDash "x-y-z".data) ∧
    Fal.canonicalAppId "workflows/a/b/c/d"
      = String.mk (Fal.joinChar '/' ((Fal.splitChar '/' "workflows/a/b/c/d".data).take 3)) ∧
    Fal.canonicalAppId "a/b/c/d"
      = String.mk (Fal.joinChar '/' ((Fal.splitChar '/' "a/b/c/d".data).take 2)) := by
  refine ⟨?_, ?_, ?_⟩
  · exact (claim_C7 "x-y-z").1 (by decide)
  · exact (claim_C7 "workflows/a/b/c/d").2.1 (by decide) (by decide)
  · exact (claim_C7 "a/b/c/d").2.2.1 (by decide) (by decide)

/-- C6: `key_credentials` resolves API-key credentials with
first-match-wins precedence: with `FAL_FORCE_AUTH_BY_USER=1` it returns
absent; otherwise `FAL_KEY`, then the config key, then the notebook
secret, each split on the first colon; otherwise the legacy
`FAL_KEY_ID`/`FAL_KEY_SECRET` pair; absent if none match.  Consequently
when both an API key env var and a valid stored bearer token are present,
the API key wins. -/
theorem claim_C6 (e : Fal.Env) :
    (e.fal_force_auth_by_user = some "1" → Fal.key_credentials e = .absent) ∧
    (∀ s i sec, e.fal_force_auth_by_user ≠ some "1" →
      e.fal_key = some s → s ≠ "" → Fal.splitFirstColon s = some (i, sec) →
      Fal.key_credentials e = .creds i sec) ∧
    (∀ s i sec, e.fal_force_auth_by_user ≠ some "1" →
      Fal.truthy e.fal_key = false →
      e.config_key = some s → s ≠ "" → Fal.splitFirstColon s = some (i, sec) →
      Fal.key_credentials e = .creds i sec) ∧
    (∀ s i sec, e.fal_force_auth_by_user ≠ some "1" →
      Fal.truthy e.fal_key = false → Fal.truthy e.config_key = false →
      e.colab_token = some s → s ≠ "" → Fal.splitFirstColon s = some (i, sec) →
      Fal.key_credentials e = .creds i sec) ∧
    (∀ i sec, e.fal_force_auth_by_user ≠ some "1" →
      Fal.truthy e.fal_key = false → Fal.truthy e.config_key = false →
      Fal.truthy e.colab_token = false →
      e.fal_key_id = some i → e.fal_key_secret = some sec →
      Fal.key_credentials e = .creds i sec) ∧
    (e.fal_force_auth_by_user ≠ some "1" →
      Fal.truthy e.fal_key = false → Fal.truthy e.config_key = false →
      Fal.truthy e.colab_token = false →
      (e.fal_key_id = none ∨ e.fal_key_secret = none) →
      Fal.key_credentials e = .absent) ∧
    (∀ s i sec t, e.fal_force_auth_by_user ≠ some "1" →
      e.fal_key = some s → s ≠ "" → Fal.splitFirstColon s = some (i, sec) →
      Fal.get_default_credentials e (some t) = .creds (.key i sec)) := by
  refine ⟨?_, ?_, ?_, ?_, ?_, ?_, ?_⟩
  · intro hf
    simp [Fal.key_credentials, hf]
  · intro s i sec hf hk hs hsp
    simp [Fal.key_credentials, Fal.pyOr, Fal.truthy, hf, hk, hs, hsp]
  · intro s i sec hf hk hc hs hsp
    have h2 : Fal.pyOr (Fal.pyOr e.fal_key e.config_key) e.colab_token = some s := by
      rw [Fal.pyOr_of_not_truthy _ _ hk, hc]
      simp [Fal.pyOr, Fal.truthy_some_of_ne s hs]
    simp [Fal.key_credentials, hf, h2, Fal.truthy_some_of_ne s hs, hsp]
  · intro s i sec hf hk hc hct hs hsp
    have h2 : Fal.pyOr (Fal.pyOr e.fal_key e.config_key) e.colab_token = some s := by
      rw [Fal.pyOr_of_not_truthy _ _ hk, Fal.pyOr_of_not_truthy _ _ hc, hct]
    simp [Fal.key_credentials, hf, h2, Fal.truthy_some_of_ne s hs, hsp]
  · intro i sec hf hk hc hct hi hsec
    simp [Fal.key_credentials, Fal.pyOr, hf, hk, hc, hct, hi, hsec]
  · intro hf hk hc hct hlegacy
    rcases hlegacy with hi | hsec
    · simp [Fal.key_credentials, Fal.pyOr, hf, hk, hc, hct, hi]
    · cases hid : e.fal_key_id <;>
        simp [Fal.key_credentials, Fal.pyOr, hf, hk, hc, hct, hid, hsec]
  · intro s i sec t hf hk hs hsp
    have hkc : Fal.key_credentials e = .creds i sec := by
      simp [Fal.key_credentials, Fal.pyOr, Fal.truthy, hf, hk, hs, hsp]
    simp [Fal.get_default_credentials, hkc]

/-- Witness for C6: concrete environments exercising the API-key source,
the legacy pair, and the API-key-beats-bearer consequence. -/
theorem claim_C6_witness :
    Fal.key_credentials ⟨none, some "id:secret", none, none, none, none⟩ =
      .creds "id" "secret" ∧
    Fal.key_credentials ⟨none, none, none, none, some "lid", some "lsec"⟩ =
      .creds "lid" "lsec" ∧
    Fal.get_default_credentials ⟨none, some "id:secret", none, none, none, none⟩
      (some "bearer-token") = .creds (.key "id" "secret") := by
  refine ⟨?_, ?_, ?_⟩
  · exact (claim_C6 ⟨none, some "id:secret", none, none, none, none⟩).2.1
      "id:secret" "id" "secret" (by decide) rfl (by decide) (by decide)
  · exact (claim_C6 ⟨none, none, none, none, some "lid", some "lsec"⟩).2.2.2.2.1
      "lid" "lsec" (by decide) rfl rfl rfl rfl rfl
  · exact (claim_C6 ⟨none, some "id:secret", none, none, none, none⟩).2.2.2.2.2.2
      "id:secret" "id" "secret" "bearer-token" (by decide) rfl (by decide) (by decide)

/-- C10: if the first-matching key source yields a non-empty string with
no colon, `key_credentials` raises `ValueError` from the unpacking of
`split(":", 1)` rather than returning absent or falling through to the
legacy pair. -/
theorem claim_C10 (e : Fal.Env) (s : String)
    (hf : e.fal_force_auth_by_user ≠ some "1")
    (hk : Fal.pyOr (Fal.pyOr e.fal_key e.config_key) e.colab_token = some s)
    (hs : s ≠ "")
    (hnc : s.data.contains ':' = false) :
    Fal.key_credentials e = .valueError := by
  have hsp : Fal.splitFirstColon s = none := by
    simp [Fal.splitFirstColon, Fal.splitFirstChar_of_not_contains ':' s.data hnc]
  simp [Fal.key_credentials, hf, hk, Fal.truthy, hs, hsp]

/-- Witness for C10: a colon-free `FAL_KEY` value raises `ValueError`. -/
theorem claim_C10_witness :
    Fal.key_credentials ⟨none, some "nocolonkey", none, none, some "lid", some "lsec"⟩ =
      .valueError :=
  claim_C10 ⟨none, some "nocolonkey", none, none, some "lid", some "lsec"⟩
    "nocolonkey" (by decide) rfl (by decide) (by decide)

/-- C4: `_fetch_access_token` under the token-file lock: no stored
refresh token fails with Unauthenticated; a stored access token whose
expiration check passes is returned with no exchange call; otherwise
exactly one exchange of the refresh token is performed, the rotated pair
is persisted, and the new access token is returned. -/
theorem claim_C4 (verify_ok : String → Bool)
    (refresh_fn : String → Option (String × String)) (s : Fal.TokenStore) :
    (s.refresh_token = none →
      Fal.fetch_access_token verify_ok refresh_fn s =
        ⟨.unauthenticated, s, []⟩) ∧
    (∀ r a, s.refresh_token = some r → s.access_token = some a →
      verify_ok a = true →
      Fal.fetch_access_token verify_ok refresh_fn s = ⟨.token a, s, []⟩) ∧
    (∀ r r' a', s.refresh_token = some r →
      (s.access_token = none ∨
        ∃ a, s.access_token = some a ∧ verify_ok a = false) →
      refresh_fn r = some (r', a') →
      Fal.fetch_access_token verify_ok refresh_fn s =
        ⟨.token a', ⟨some r', some a'⟩, [r]⟩) := by
  refine ⟨?_, ?_, ?_⟩
  · intro hr
    simp [Fal.fetch_access_token, Fal.load_token, hr]
  · intro r a hr ha hv
    simp [Fal.fetch_access_token, Fal.load_token, hr, ha, hv]
  · intro r r' a' hr hacc hx
    rcases hacc with ha | ⟨a, ha, hv⟩
    · simp [Fal.fetch_access_token, Fal.load_token, Fal.do_refresh,
        Fal.save_token, hr, ha, hx]
    · simp [Fal.fetch_access_token, Fal.load_token, Fal.do_refresh,
        Fal.save_token, hr, ha, hv, hx]

/-- Witness for C4: the three paths at concrete stores. -/
theorem claim_C4_witness :
    Fal.fetch_access_token (fun _ => true) (fun _ => none) ⟨none, some "a"⟩ =
      ⟨.unauthenticated, ⟨none, some "a"⟩, []⟩ ∧
    Fal.fetch_access_token (fun _ => true) (fun _ => none) ⟨some "r", some "a"⟩ =
      ⟨.token "a", ⟨some "r", some "a"⟩, []⟩ ∧
    Fal.fetch_access_token (fun _ => false) (fun t => some (t ++ "2", "a2"))
        ⟨some "r", some "a"⟩ =
      ⟨.token "a2", ⟨some "r2", some "a2"⟩, ["r"]⟩ := by
  refine ⟨?_, ?_, ?_⟩
  · exact (claim_C4 (fun _ => true) (fun _ => none) ⟨none, some "a"⟩).1 rfl
  · exact (claim_C4 (fun _ => true) (fun _ => none) ⟨some "r", some "a"⟩).2.1
      "r" "a" rfl rfl rfl
  · exact (claim_C4 (fun _ => false) (fun t => some (t ++ "2", "a2"))
      ⟨some "r", some "a"⟩).2.2 "r" "r2" "a2" rfl
      (Or.inr ⟨"a", rfl, rfl⟩) rfl

/-- C5: if the token exchange inside `_fetch_access_token` fails for any
reason, the stored pair is deleted (all local credential state cleared)
before the original exception is re-raised; the store is never left
holding the old pair after a failed exchange. -/
theorem claim_C5 (verify_ok : String → Bool)
    (refresh_fn : String → Option (String × String)) (s : Fal.TokenStore)
    (r : String) (hr : s.refresh_token = some r)
    (hacc : s.access_token = none ∨
      ∃ a, s.access_token = some a ∧ verify_ok a = false)
    (hfail : refresh_fn r = none) :
    Fal.fetch_access_token verify_ok refresh_fn s =
      ⟨.refreshError, ⟨none, none⟩, [r]⟩ := by
  rcases hacc with ha | ⟨a, ha, hv⟩
  · simp [Fal.fetch_access_token, Fal.load_token, Fal.do_refresh,
      Fal.delete_token, hr, ha, hfail]
  · simp [Fal.fetch_access_token, Fal.load_token, Fal.do_refresh,
      Fal.delete_token, hr, ha, hv, hfail]

/-- Witness for C5: a failed exchange clears the stored pair. -/
theorem claim_C5_witness :
    Fal.fetch_access_token (fun _ => false) (fun _ => none)
        ⟨some "r", some "expired"⟩ =
      ⟨.refreshError, ⟨none, none⟩, ["r"]⟩ :=
  claim_C5 (fun _ => false) (fun _ => none) ⟨some "r", some "expired"⟩ "r"
    rfl (Or.inr ⟨"expired", rfl, rfl⟩) rfl

/-- C9: inside the notebook environment the secret store is queried at
most once per process: once a call has performed the lookup, the cache
is marked checked and holds the returned result; any call on a checked
cache returns the cached secret with no lookup; over any sequence of
calls the total number of lookups is at most one (and zero from a
checked state). -/
theorem claim_C9 (env : Fal.ColabCallEnv) (st : Fal.GoogleColabState) :
    (st.is_checked = true → env.is_colab = true →
      Fal.get_colab_token env st = (st.secret, st, 0)) ∧
    ((Fal.get_colab_token env st).2.2 = 1 →
      (Fal.get_colab_token env st).2.1.is_checked = true ∧
      (Fal.get_colab_token env st).2.1.secret =
        (Fal.get_colab_token env st).1) ∧
    (st.is_checked = true →
      ∀ es, (Fal.run_colab_calls st es).2 = 0) ∧
    (∀ es, (Fal.run_colab_calls st es).2 ≤ 1) := by
  refine ⟨?_, ?_, ?_, ?_⟩
  · intro hc hcol
    simp [Fal.get_colab_token, hc, hcol]
  · intro hone
    by_cases h1 : env.is_colab <;> by_cases h2 : st.is_checked <;>
      by_cases h3 : env.import_ok <;> cases hg : env.userdata_get <;>
      simp [Fal.get_colab_token, h1, h2, h3, hg] at hone ⊢
  · intro hc es
    exact Fal.run_colab_calls_of_checked st hc es
  · intro es
    exact Fal.run_colab_calls_le_one st es

/-- Counterexample for C8 as stated: a non-success response whose body IS
valid JSON but whose `Content-Type` header is `text/plain` propagates the
original transport error unchanged — the code keys enrichment on the
header, not on the body being JSON, so the claim fails at this input. -/
theorem claim_C8_counterexample :
    (Fal.resultDemoLoads "\x7b\"error\": \"boom\"\x7d").isSome = true ∧
    Fal.fetch_result Fal.resultDemoLoads
      ⟨404, some "text/plain", "\x7b\"error\": \"boom\"\x7d"⟩ =
      .errOriginal ∧
    ¬ ((Fal.resultDemoLoads "\x7b\"error\": \"boom\"\x7d").isSome = true →
        Fal.fetch_result Fal.resultDemoLoads
          ⟨404, some "text/plain", "\x7b\"error\": \"boom\"\x7d"⟩ =
          .errEnriched 404 "\x7b\"error\": \"boom\"\x7d") :=
  ⟨rfl, rfl, fun hclaim => Fal.FetchOutcome.noConfusion (hclaim rfl)⟩

/-- C8 (amended): on a non-success response, `fetch_result`'s error
enrichment is keyed on the `Content-Type` header equalling exactly
`"application/json"`, not on whether the body parses as JSON: with that
header the raised error's message is the status code and raw body text;
with any other header value the original transport error propagates
unchanged; with the header absent a `KeyError` is raised. -/
theorem claim_C8 (loads : Fal.JsonParse) (r : Fal.HttpResponse)
    (hfail : Fal.isSuccessCode r.status_code = false) :
    (r.content_type = some "application/json" →
      Fal.fetch_result loads r = .errEnriched r.status_code r.text) ∧
    (∀ ct, r.content_type = some ct → ct ≠ "application/json" →
      Fal.fetch_result loads r = .errOriginal) ∧
    (r.content_type = none → Fal.fetch_result loads r = .errKeyError) := by
  refine ⟨?_, ?_, ?_⟩
  · intro hct
    simp [Fal.fetch_result, hfail, hct]
  · intro ct hct hne
    simp [Fal.fetch_result, hfail, hct, hne]
  · intro hct
    simp [Fal.fetch_result, hfail, hct]

/-- Witness for C8: the three failure shapes at concrete responses. -/
theorem claim_C8_witness :
    Fal.fetch_result Fal.resultDemoLoads
      ⟨500, some "application/json", "\x7b\"error\": \"boom\"\x7d"⟩ =
      .errEnriched 500 "\x7b\"error\": \"boom\"\x7d" ∧
    Fal.fetch_result Fal.resultDemoLoads
      ⟨500, some "text/html", "oops"⟩ = .errOriginal ∧
    Fal.fetch_result Fal.resultDemoLoads ⟨500, none, "oops"⟩ = .errKeyError := by
  refine ⟨?_, ?_, ?_⟩
  · exact (claim_C8 Fal.resultDemoLoads
      ⟨500, some "application/json", "\x7b\"error\": \"boom\"\x7d"⟩ rfl).1 rfl
  · exact (claim_C8 Fal.resultDemoLoads ⟨500, some "text/html", "oops"⟩
      rfl).2.1 "text/html" rfl (by decide)
  · exact (claim_C8 Fal.resultDemoLoads ⟨500, none, "oops"⟩ rfl).2.2 rfl

/-- C3: the lazy event sequence yields every non-terminal status returned
by successive `status()` polls, in poll order, sleeping the fixed poll
delay after each yield, and terminates the sequence without yielding as
soon as a poll returns `Completed` (so for Queued, Queued, InProgress,
Completed it yields exactly those three non-terminal statuses); it never
terminates (produces no trace at any fuel) if `Completed` is never
returned. -/
theorem claim_C3 (polls : Nat → Fal.Status) (delay : ℚ) (k : Nat)
    (h : ∀ j, j < k → (polls j).isCompleted = false)
    (hk : (polls k).isCompleted = true) :
    (∀ fuel, k < fuel →
      Fal.iter_events polls delay 0 fuel
        = some (Fal.poll_trace polls delay 0 k)) ∧
    Fal.trace_yields (Fal.poll_trace polls delay 0 k)
      = (List.range k).map polls ∧
    (∀ (polls' : Nat → Fal.Status) (delay' : ℚ),
      (∀ n, (polls' n).isCompleted = false) →
      ∀ fuel, Fal.iter_events polls' delay' 0 fuel = none) := by
  refine ⟨?_, ?_, ?_⟩
  · intro fuel hfuel
    exact Fal.iter_events_run polls delay k 0 fuel hfuel
      (fun j hj => by simpa using h j hj) (by simpa using hk)
  · rw [Fal.trace_yields_poll_trace polls delay k 0]
    exact List.map_congr_left fun j _ => congrArg polls (by omega)
  · intro polls' delay' hnever fuel
    exact Fal.iter_events_never polls' delay' hnever fuel 0

/-- Witness for C3: the Queued, Queued, InProgress, Completed example
yields exactly the three non-terminal statuses with a sleep after each,
and an always-queued server never produces a trace. -/
theorem claim_C3_witness :
    Fal.iter_events Fal.demoPolls Fal.defaultPollDelay 0 4 =
      some [.yielded (.queued (.num 2)), .slept Fal.defaultPollDelay,
        .yielded (.queued (.num 1)), .slept Fal.defaultPollDelay,
        .yielded (.inProgress .null), .slept Fal.defaultPollDelay] ∧
    Fal.trace_yields (Fal.poll_trace Fal.demoPolls Fal.defaultPollDelay 0 3) =
      [.queued (.num 2), .queued (.num 1), .inProgress .null] ∧
    Fal.iter_events (fun _ => .queued (.num 0)) Fal.defaultPollDelay 0 1000 =
      none := by
  have hmain := claim_C3 Fal.demoPolls Fal.defaultPollDelay 3
    (by decide) rfl
  exact ⟨hmain.1 4 (by norm_num), hmain.2.1,
    hmain.2.2 (fun _ => .queued (.num 0)) Fal.defaultPollDelay
      (fun _ => rfl) 1000⟩

/-- Witness for C9: a checked cache is returned as-is with no lookup,
and a concrete two-call sequence performs exactly one lookup. -/
theorem claim_C9_witness :
    Fal.get_colab_token ⟨true, true, .ok "ignored"⟩ ⟨true, some "tok"⟩ =
      (some "tok", ⟨true, some "tok"⟩, 0) ∧
    (Fal.run_colab_calls ⟨true, some "tok"⟩
      [⟨true, true, .ok "x"⟩, ⟨true, true, .error ()⟩]).2 = 0 := by
  constructor
  · exact (claim_C9 ⟨true, true, .ok "ignored"⟩ ⟨true, some "tok"⟩).1 rfl rfl
  · exact (claim_C9 ⟨true, true, .ok "x"⟩ ⟨true, some "tok"⟩).2.2.1 rfl
      [⟨true, true, .ok "x"⟩, ⟨true, true, .error ()⟩]

/-- C1: `RequestHandle.status()` maps every HTTP success response as
follows: a 200 response whose JSON body contains `"logs"` returns
`Completed(logs = body["logs"])`; a non-200 success response whose body
has status `"IN_QUEUE"` returns `Queued(position =
body["queue_position"])`; one with status `"IN_PROGRESS"` returns
`InProgress(logs = body["logs"])`; any other status string raises a fatal
`ValueError`. -/
theorem claim_C1 (loads : Fal.JsonParse) (r : Fal.HttpResponse) (data : Fal.Json)
    (hsucc : Fal.isSuccessCode r.status_code = true)
    (hbody : loads r.text = some data) :
    (r.status_code = 200 → ∀ l, data.get "logs" = some l →
      Fal.status loads r = .ok (.completed l)) ∧
    (r.status_code ≠ 200 → data.get "status" = some (.str "IN_QUEUE") →
      ∀ p, data.get "queue_position" = some p →
      Fal.status loads r = .ok (.queued p)) ∧
    (r.status_code ≠ 200 → data.get "status" = some (.str "IN_PROGRESS") →
      ∀ l, data.get "logs" = some l →
      Fal.status loads r = .ok (.inProgress l)) ∧
    (∀ s, r.status_code ≠ 200 → data.get "status" = some (.str s) →
      s ≠ "IN_QUEUE" → s ≠ "IN_PROGRESS" →
      Fal.status loads r = .error .valueError) := by
  refine ⟨?_, ?_, ?_, ?_⟩
  · intro h200 l hl
    simp [Fal.status, Fal.isSuccessCode, hsucc, hbody, h200, hl]
  · intro hne hst p hp
    simp [Fal.status, hsucc, hbody, hne, hst, hp]
  · intro hne hst l hl
    simp [Fal.status, hsucc, hbody, hne, hst, hl]
  · intro s hne hst hq hp
    simp [Fal.status, hsucc, hbody, hne, hst, hq, hp]

/-- Witness for C1: the spec's concrete examples, decided by applying
`claim_C1` to explicit responses. -/
theorem claim_C1_witness :
    Fal.status Fal.statusDemoLoads
        ⟨200, some "application/json", "\x7b\"logs\": []\x7d"⟩ =
      .ok (.completed (.arr [])) ∧
    Fal.status Fal.statusDemoLoads
        ⟨202, some "application/json",
          "\x7b\"status\": \"IN_QUEUE\", \"queue_position\": 3\x7d"⟩ =
      .ok (.queued (.num 3)) ∧
    Fal.status Fal.statusDemoLoads
        ⟨202, some "application/json", "\x7b\"status\": \"BOGUS\"\x7d"⟩ =
      .error .valueError := by
  refine ⟨?_, ?_, ?_⟩
  · exact (claim_C1 Fal.statusDemoLoads
      ⟨200, some "application/json", "\x7b\"logs\": []\x7d"⟩
      (.obj [("logs", .arr [])]) rfl rfl).1 rfl (.arr []) rfl
  · exact (claim_C1 Fal.statusDemoLoads
      ⟨202, some "application/json",
        "\x7b\"status\": \"IN_QUEUE\", \"queue_position\": 3\x7d"⟩
      (.obj [("status", .str "IN_QUEUE"), ("queue_position", .num 3)])
      rfl rfl).2.1 (by decide) rfl (.num 3) rfl
  · exact (claim_C1 Fal.statusDemoLoads
      ⟨202, some "application/json", "\x7b\"status\": \"BOGUS\"\x7d"⟩
      (.obj [("status", .str "BOGUS")]) rfl rfl).2.2.2 "BOGUS" (by decide) rfl
      (by decide) (by decide)

namespace Fal

theorem is_meta_text (loads : JsonParse) (s : String)
    (fields : List (String × Json)) (v w : Json)
    (hl : loads s = some (.obj fields))
    (ht : lookupField fields "type" = some v)
    (hr : lookupField fields "request_id" = some w) :
    is_meta loads (.text s) = true := by
  simp [is_meta, hl, ht, hr]

theorem getNeStr_false (fields : List (String × Json)) (k t : String)
    (v : Json) (h : lookupField fields k = some v)
    (hv : v.beq (.str t) = true) :
    getNeStr (.obj fields) k t = false := by
  simp [getNeStr, Json.get, h, hv]

theorem getNeStr_true (fields : List (String × Json)) (k t : String)
    (v : Json) (h : lookupField fields k = some v)
    (hv : v.beq (.str t) = false) :
    getNeStr (.obj fields) k t = true := by
  simp [getNeStr, Json.get, h, hv]

theorem recv_meta_cons (loads : JsonParse) (ty s : String)
    (fields : List (String × Json)) (v w : Json) (ms : List WsMsg)
    (hl : loads s = some (.obj fields))
    (ht : lookupField fields "type" = some v)
    (hr : lookupField fields "request_id" = some w)
    (hv : v.beq (.str ty) = true) :
    WSConnection.recv_meta loads ty ⟨.text s :: ms, none⟩ =
      .ok (.obj fields, ⟨ms, none⟩) := by
  have hm := is_meta_text loads s fields v w hl ht hr
  have hg := getNeStr_false fields "type" ty v ht hv
  simp [WSConnection.recv_meta, WSConnection.peek, WSConnection.consume,
    hm, hl, hg]

theorem recv_meta_buffered (loads : JsonParse) (ty s : String)
    (fields : List (String × Json)) (v w : Json) (ms : List WsMsg)
    (hl : loads s = some (.obj fields))
    (ht : lookupField fields "type" = some v)
    (hr : lookupField fields "request_id" = some w)
    (hv : v.beq (.str ty) = true) :
    WSConnection.recv_meta loads ty ⟨ms, some (.text s)⟩ =
      .ok (.obj fields, ⟨ms, none⟩) := by
  have hm := is_meta_text loads s fields v w hl ht hr
  have hg := getNeStr_false fields "type" ty v ht hv
  simp [WSConnection.recv_meta, WSConnection.peek, WSConnection.consume,
    hm, hl, hg]

theorem recv_meta_buffered_bad_type (loads : JsonParse) (ty s : String)
    (fields : List (String × Json)) (v w : Json) (ms : List WsMsg)
    (hl : loads s = some (.obj fields))
    (ht : lookupField fields "type" = some v)
    (hr : lookupField fields "request_id" = some w)
    (hv : v.beq (.str ty) = false) :
    WSConnection.recv_meta loads ty ⟨ms, some (.text s)⟩ =
      .error (.valueError ("Expected a " ++ ty ++ " message")) := by
  have hm := is_meta_text loads s fields v w hl ht hr
  have hg := getNeStr_true fields "type" ty v ht hv
  simp [WSConnection.recv_meta, WSConnection.peek, hm, hl, hg]

theorem recv_meta_not_meta (loads : JsonParse) (ty : String) (m : WsMsg)
    (ms : List WsMsg) (h : is_meta loads m = false) :
    WSConnection.recv_meta loads ty ⟨m :: ms, none⟩ =
      .error (.valueError ("Expected a " ++ ty ++ " message")) := by
  simp [WSConnection.recv_meta, WSConnection.peek, h]

theorem recv_response_spec (loads : JsonParse) (mEnd : WsMsg)
    (hm : is_meta loads mEnd = true) :
    ∀ (datas rest : List WsMsg) (fuel : Nat),
      datas.length < fuel →
      (∀ m ∈ datas, is_meta loads m = false) →
      WSConnection.recv_response loads fuel ⟨datas ++ mEnd :: rest, none⟩ =
        .ok (datas, ⟨rest, some mEnd⟩) := by
  intro datas
  induction datas with
  | nil =>
    intro rest fuel hfuel _
    cases fuel with
    | zero => omega
    | succ f => simp [WSConnection.recv_response, WSConnection.peek, hm]
  | cons d ds ih =>
    intro rest fuel hfuel hd
    cases fuel with
    | zero => omega
    | succ f =>
      have hdm : is_meta loads d = false := hd d (List.mem_cons_self d ds)
      simp [WSConnection.recv_response, WSConnection.peek, WSConnection.consume,
        hdm, ih rest f (by simpa using Nat.lt_of_succ_lt_succ hfuel)
          (fun m hm' => hd m (List.mem_cons_of_mem d hm'))]

end Fal

/-- C2: `_WSConnection.recv()` on a frame sequence of a Start control
frame, non-control data frames, and a trailing control frame: when the
trailing frame is an End with the Start's `request_id`, it returns the
concatenation of the data frames (text frames UTF-8-encoded, binary
frames raw); a differing `request_id`, a trailing control frame that is
not an End, or a non-control frame where the Start was expected each
raise a fatal `ValueError`. -/
theorem claim_C2 (loads : Fal.JsonParse) (startS endS : String)
    (sfields efields : List (String × Fal.Json)) (rid rid' : Fal.Json)
    (datas rest : List Fal.WsMsg)
    (hsl : loads startS = some (.obj sfields))
    (hst : Fal.lookupField sfields "type" = some (.str "start"))
    (hsr : Fal.lookupField sfields "request_id" = some rid)
    (hel : loads endS = some (.obj efields))
    (her : Fal.lookupField efields "request_id" = some rid')
    (hd : ∀ m ∈ datas, Fal.is_meta loads m = false) :
    (Fal.lookupField efields "type" = some (.str "end") →
      Fal.Json.beq rid' rid = true →
      Fal.WSConnection.recv loads
          ⟨.text startS :: (datas ++ .text endS :: rest), none⟩ =
        .ok ((datas.map Fal.encodeWsBytes).flatten, ⟨rest, none⟩)) ∧
    (Fal.lookupField efields "type" = some (.str "end") →
      Fal.Json.beq rid' rid = false →
      Fal.WSConnection.recv loads
          ⟨.text startS :: (datas ++ .text endS :: rest), none⟩ =
        .error (.valueError "Mismatched request_id in end message")) ∧
    (∀ tv, Fal.lookupField efields "type" = some tv →
      Fal.Json.beq tv (.str "end") = false →
      Fal.WSConnection.recv loads
          ⟨.text startS :: (datas ++ .text endS :: rest), none⟩ =
        .error (.valueError "Expected a end message")) ∧
    (∀ (m : Fal.WsMsg) (ms : List Fal.WsMsg), Fal.is_meta loads m = false →
      Fal.WSConnection.recv loads ⟨m :: ms, none⟩ =
        .error (.valueError "Expected a start message")) := by
  have h1 := Fal.recv_meta_cons loads "start" startS sfields (.str "start") rid
    (datas ++ .text endS :: rest) hsl hst hsr rfl
  refine ⟨?_, ?_, ?_, ?_⟩
  · intro het hbeq
    have hmE := Fal.is_meta_text loads endS efields (.str "end") rid' hel het her
    have h2 := Fal.recv_response_spec loads (.text endS) hmE datas rest
      (Fal.WSConnection.size ⟨datas ++ .text endS :: rest, none⟩ + 1)
      (by simp [Fal.WSConnection.size]; omega) hd
    have h3 := Fal.recv_meta_buffered loads "end" endS efields (.str "end") rid'
      rest hel het her rfl
    simp only [Fal.WSConnection.recv, h1, Fal.Json.get, hsr, h2, h3, her, hbeq]
    simp
  · intro het hbeq
    have hmE := Fal.is_meta_text loads endS efields (.str "end") rid' hel het her
    have h2 := Fal.recv_response_spec loads (.text endS) hmE datas rest
      (Fal.WSConnection.size ⟨datas ++ .text endS :: rest, none⟩ + 1)
      (by simp [Fal.WSConnection.size]; omega) hd
    have h3 := Fal.recv_meta_buffered loads "end" endS efields (.str "end") rid'
      rest hel het her rfl
    simp only [Fal.WSConnection.recv, h1, Fal.Json.get, hsr, h2, h3, her, hbeq]
    simp
  · intro tv het htv
    have hmE := Fal.is_meta_text loads endS efields tv rid' hel het her
    have h2 := Fal.recv_response_spec loads (.text endS) hmE datas rest
      (Fal.WSConnection.size ⟨datas ++ .text endS :: rest, none⟩ + 1)
      (by simp [Fal.WSConnection.size]; omega) hd
    have h3 := Fal.recv_meta_buffered_bad_type loads "end" endS efields tv rid'
      rest hel het her htv
    simp only [Fal.WSConnection.recv, h1, Fal.Json.get, hsr, h2, h3]
    rfl
  · intro m ms hmm
    have h4 := Fal.recv_meta_not_meta loads "start" m ms hmm
    simp only [Fal.WSConnection.recv, h4]
    rfl

/-- Witness for C2: frames `Start(id=7)`, `Data("a")`, `Data(b"b")` then
`End(id=7)` yield `b"ab"`; with `End(id=8)` instead, the mismatch
error. -/
theorem claim_C2_witness :
    Fal.WSConnection.recv Fal.wsDemoLoads
      ⟨[.text "\x7b\"type\": \"start\", \"request_id\": 7\x7d", .text "a",
        .binary [98], .text "\x7b\"type\": \"end\", \"request_id\": 7\x7d"],
        none⟩ =
      .ok ([97, 98], ⟨[], none⟩) ∧
    Fal.WSConnection.recv Fal.wsDemoLoads
      ⟨[.text "\x7b\"type\": \"start\", \"request_id\": 7\x7d", .text "a",
        .binary [98], .text "\x7b\"type\": \"end\", \"request_id\": 8\x7d"],
        none⟩ =
      .error (.valueError "Mismatched request_id in end message") := by
  constructor
  · exact (claim_C2 Fal.wsDemoLoads
      "\x7b\"type\": \"start\", \"request_id\": 7\x7d"
      "\x7b\"type\": \"end\", \"request_id\": 7\x7d"
      [("type", .str "start"), ("request_id", .num 7)]
      [("type", .str "end"), ("request_id", .num 7)]
      (.num 7) (.num 7) [.text "a", .binary [98]] []
      rfl rfl rfl rfl rfl (by decide)).1 rfl rfl
  · exact (claim_C2 Fal.wsDemoLoads
      "\x7b\"type\": \"start\", \"request_id\": 7\x7d"
      "\x7b\"type\": \"end\", \"request_id\": 8\x7d"
      [("type", .str "start"), ("request_id", .num 7)]
      [("type", .str "end"), ("request_id", .num 8)]
      (.num 7) (.num 8) [.text "a", .binary [98]] []
      rfl rfl rfl rfl rfl (by decide)).2.1 rfl rfl
